import Mathlib

/-!
Verification model of the 29ROZ call-analysis pipeline (src/main.py).

The pipeline's pure control flow is embedded shallowly: every network call,
subprocess invocation and environment read is replaced by an explicit oracle
(a plain function argument), while the branching logic of the source is
reproduced statement by statement.  Byte strings become lists of naturals,
the processed-call set becomes a duplicate-free list of strings, and Python
set enumeration order (which the source relies on when it truncates the
processed set) is an explicit permutation parameter.
-/

namespace Telfin

/-! ## Report formatter: substring search and the visual tag (main.py 646-659) -/

/-- Character-list prefix test, used to express Python substring containment. -/
def leadEq : List Char → List Char → Bool
  | [], _ => true
  | _ :: _, [] => false
  | a :: as, b :: bs => (a == b) && leadEq as bs

/-- Substring search over character lists: Python needle in hay. -/
def subSearch (needle : List Char) : List Char → Bool
  | [] => leadEq needle []
  | b :: bs => leadEq needle (b :: bs) || subSearch needle bs

/-- Python substring containment test on strings. -/
def substrB (needle hay : String) : Bool :=
  subSearch needle.toList hay.toList

/-- Visual classification of the analysis text (main.py 646-659): the chained
conditionals computing call_type_emoji, verbatim. -/
def call_type_emoji (analysis : String) : String :=
  if substrB "ПРОДАЖА" analysis then
    if substrB "ЗАКАЗ ОФОРМЛЕН" analysis then "🟢 УСПЕШНАЯ ПРОДАЖА"
    else "🔴 НЕУДАЧНАЯ ПРОДАЖА"
  else if substrB "ЛОГИСТИКА" analysis then "🚚 ЛОГИСТИКА"
  else if substrB "ПОДДЕРЖКА" analysis then "🛠️ ПОДДЕРЖКА"
  else if substrB "НЕДОЗВОН" analysis || substrB "ОШИБКА" analysis then "❌ НЕДОЗВОН/ОШИБКА"
  else if substrB "ДРУГОЕ" analysis then "📋 ДРУГОЕ"
  else "📞"

/-- Spec-side rule list (from the spec's words): the six categories with their
marker predicates, in the claimed priority order successful-sale, failed-sale,
logistics, support, no-answer/error, other. -/
def tagRules : List ((String → Bool) × String) :=
  [(fun a => substrB "ПРОДАЖА" a && substrB "ЗАКАЗ ОФОРМЛЕН" a, "🟢 УСПЕШНАЯ ПРОДАЖА"),
   (fun a => substrB "ПРОДАЖА" a, "🔴 НЕУДАЧНАЯ ПРОДАЖА"),
   (fun a => substrB "ЛОГИСТИКА" a, "🚚 ЛОГИСТИКА"),
   (fun a => substrB "ПОДДЕРЖКА" a, "🛠️ ПОДДЕРЖКА"),
   (fun a => substrB "НЕДОЗВОН" a || substrB "ОШИБКА" a, "❌ НЕДОЗВОН/ОШИБКА"),
   (fun a => substrB "ДРУГОЕ" a, "📋 ДРУГОЕ")]

/-- Spec-side first-match evaluation of an ordered rule list, with the generic
fallback tag when no rule fires. -/
def firstTag : List ((String → Bool) × String) → String → String
  | [], _ => "📞"
  | (p, t) :: rest, a => if p a then t else firstTag rest a

/-! ## Audio normalizer / transcription step (main.py 296-424) -/

/-- Outcome of a subprocess.run call: it either ran and produced an exit code,
or raised an exception (caught by the surrounding except block). -/
inductive ProcOutcome where
  | ran (rc : Int)
  | exn
deriving DecidableEq

/-- The two temporary files the conversion step can create. -/
inductive TempFile where
  | mp3
  | ogg
deriving DecidableEq

/-- Oracles for the external effects of transcribe_with_yandex: the ffprobe
run, the parsed duration from its stdout (none models a ValueError), the
ffmpeg run, the bytes read back from the converted file, and the SpeechKit
response (none models any failed or malformed response). -/
structure YandexOracles where
  ffprobe : ProcOutcome
  duration : Option Rat
  ffmpeg : ProcOutcome
  oggBytes : List Nat
  stt : List Nat → Option String

/-- Observable effects of one transcribe_with_yandex call: temp files created
and removed, whether the size limit rejected the blob, whether the 30s limit
refused it, whether ffmpeg was reached, and the payload sent to SpeechKit. -/
structure YandexStats where
  created : List TempFile
  removed : List TempFile
  tooLarge : Bool
  refusedTooLong : Bool
  ffmpegRan : Bool
  sttSent : Option (List Nat)
deriving DecidableEq

/-- The placeholder transcript returned when the probed duration exceeds 30s
(main.py line 345). -/
def tooLongMsg : String :=
  "Аудиозапись слишком длинная для транскрипции (более 30 секунд)"

/-- Bytes of the ID3 signature checked by audio_data.startswith (main.py 319). -/
def mp3Sig : List Nat := [73, 68, 51]

/-- Bytes of the ftyp marker checked at offset 4 (main.py 319). -/
def ftypSig : List Nat := [102, 116, 121, 112]

/-- Container sniff of main.py line 319: ID3 prefix or ftyp at offset 4. -/
def isMp3Like (audio : List Nat) : Bool :=
  decide (audio.take 3 = mp3Sig) || decide ((audio.drop 4).take 4 = ftypSig)

/-- The final SpeechKit request (main.py 386-415): records the payload and
returns whatever the provider oracle answers. -/
def sttCall (o : YandexOracles) (payload : List Nat) (st : YandexStats) :
    Option String × YandexStats :=
  (o.stt payload, { st with sttSent := some payload })

/-- The conversion step (main.py 349-367): the ogg temp file is created, then
ffmpeg runs; on exit code 0 both temp files are unlinked and the converted
bytes are sent to SpeechKit; on a nonzero exit code or an exception the
function returns none without reaching the unlink statements. -/
def convertStep (o : YandexOracles) (st : YandexStats) : Option String × YandexStats :=
  match o.ffmpeg with
  | .exn => (none, { st with created := st.created ++ [TempFile.ogg], ffmpegRan := true })
  | .ran rc =>
    if rc = 0 then
      sttCall o o.oggBytes
        { st with created := st.created ++ [TempFile.ogg],
                  removed := st.removed ++ [TempFile.mp3, TempFile.ogg],
                  ffmpegRan := true }
    else
      (none, { st with created := st.created ++ [TempFile.ogg], ffmpegRan := true })

/-- Model of transcribe_with_yandex (main.py 296-424): key/emptiness/size
guards, container sniff, duration probe with the 30s refusal, out-of-process
conversion, and the SpeechKit request. -/
def transcribe_with_yandex (o : YandexOracles) (apiKey : String) (audio : List Nat) :
    Option String × YandexStats :=
  let st0 : YandexStats :=
    { created := [], removed := [], tooLarge := false, refusedTooLong := false,
      ffmpegRan := false, sttSent := none }
  if apiKey = "" ∨ apiKey = "your_yandex_api_key" then (none, st0)
  else if audio = [] then (none, st0)
  else if 1048576 < audio.length then (none, { st0 with tooLarge := true })
  else if isMp3Like audio then
    let st1 : YandexStats := { st0 with created := [TempFile.mp3] }
    match o.ffprobe with
    | .exn => (none, st1)
    | .ran rc =>
      if rc = 0 then
        match o.duration with
        | some d =>
          if 30 < d then
            (some tooLongMsg, { st1 with removed := [TempFile.mp3], refusedTooLong := true })
          else convertStep o st1
        | none => convertStep o st1
      else convertStep o st1
  else sttCall o audio st0

/-! ## Recording resolver (main.py 217-294) -/

/-- The fields of a CDR record read by download_recording (main.py 236-238),
with the Python defaults: a missing record_file_size reads as 0, missing URLs
read as none. -/
structure CdrRecord where
  record_file_size : Nat
  storage_url : Option String
  record_uuid : Option String
deriving DecidableEq

/-- An HTTP response as observed by the resolver: a status code and a body. -/
structure HttpResp where
  status : Nat
  content : List Nat
deriving DecidableEq

/-- Python truthiness of an optional string field. -/
def optTruthy : Option String → Bool
  | none => false
  | some s => if s = "" then false else true

/-- One guarded fetch attempt (main.py 250-273): attempted only when the URL
field is truthy; a 200 yields the body, any other status or an exception
falls through to the next strategy. -/
def fetchAttempt (present : Bool) (resp : Option HttpResp) : Option (List Nat) :=
  if present then
    match resp with
    | some r => if r.status = 200 then some r.content else none
    | none => none
  else none

/-- Model of download_recording (main.py 217-294): the size-0 early return,
then the three-tier fallback storage_url, record_uuid, legacy call_uuid.  In
the legacy tier a 404 returns none; a 200 returns the body; any other status
raises inside the function, is caught by its own handler, and none is
returned (no exception escapes to the caller). -/
def download_recording (cdr : Option CdrRecord)
    (storageResp recordResp legacyResp : Option HttpResp) : Option (List Nat) :=
  match cdr with
  | none => none
  | some r =>
    if r.record_file_size = 0 then none
    else
      match fetchAttempt (optTruthy r.storage_url) storageResp with
      | some content => some content
      | none =>
        match fetchAttempt (optTruthy r.record_uuid) recordResp with
        | some content => some content
        | none =>
          match legacyResp with
          | none => none
          | some resp =>
            if resp.status = 404 then none
            else if resp.status = 200 then some resp.content
            else none

/-! ## Processed-set tracker (main.py 17-51) -/

/-- Python set insertion, on a list representing the set: appends the element
when it is not already a member. -/
def pyInsert (s : List String) (x : String) : List String :=
  if x ∈ s then s else s ++ [x]

/-- Model of save_processed_call (main.py 33-51): insert the id, then when
the cardinality exceeds 100 keep only the last 100 elements of the set's
enumeration.  Python enumerates a set in an order determined by string
hashing; that order is the explicit enum parameter here (an arbitrary
permutation of the set). -/
def save_processed_call (enum : List String → List String) (s : List String)
    (x : String) : List String :=
  let s2 := pyInsert s x
  if 100 < s2.length then (enum s2).drop (s2.length - 100) else s2

/-! ## Pipeline orchestrator (main.py 562-730) -/

/-- One entry of the call list as read by the loop: only call_uuid steers the
control flow (the other fields feed logging and the report text). -/
structure Call where
  call_uuid : Option String
deriving DecidableEq

/-- Terminal outcome of processing one call in the loop body. -/
inductive Outcome where
  | noRecording
  | transcriptionFailed
  | analysisFailed
  | deliveryFailed
  | delivered
deriving DecidableEq

/-- What one loop iteration did: its outcome and the payload (if any) that the
transcription step sent to the provider. -/
structure CallTrace where
  outcome : Outcome
  sttSent : Option (List Nat)
deriving DecidableEq

/-- Which outcomes reach save_processed_call (main.py 712 and 723). -/
def marksProcessed : Outcome → Bool
  | .noRecording => true
  | .delivered => true
  | _ => false

/-- Which outcomes reach the send_telegram_report call (main.py 708). -/
def attemptsDelivery : Outcome → Bool
  | .delivered => true
  | .deliveryFailed => true
  | _ => false

/-- Per-run oracles for every external collaborator, keyed by call uuid: the
CDR lookup, the three recording endpoints, the transcription-step oracles,
the configured SpeechKit key, the GPT analysis, and the chat sink's
success/failure answer for the call's report. -/
structure Env where
  cdr : String → Option CdrRecord
  storage : String → Option HttpResp
  record : String → Option HttpResp
  legacy : String → Option HttpResp
  yandex : String → YandexOracles
  apiKey : String
  analyze : String → Option String
  telegram : String → Bool

/-- The loop body for one call with a truthy uuid (main.py 629-723): download,
Python-truthiness gates on the audio bytes, transcript and analysis, then the
delivery attempt.  State-independent: the body never reads the processed set. -/
def processCall (env : Env) (u : String) : CallTrace :=
  match download_recording (env.cdr u) (env.storage u) (env.record u) (env.legacy u) with
  | none => ⟨.noRecording, none⟩
  | some bytes =>
    if bytes = [] then ⟨.noRecording, none⟩
    else
      let tr := transcribe_with_yandex (env.yandex u) env.apiKey bytes
      match tr.1 with
      | none => ⟨.transcriptionFailed, tr.2.sttSent⟩
      | some t =>
        if t = "" then ⟨.transcriptionFailed, tr.2.sttSent⟩
        else
          match env.analyze t with
          | none => ⟨.analysisFailed, tr.2.sttSent⟩
          | some a =>
            if a = "" then ⟨.analysisFailed, tr.2.sttSent⟩
            else if env.telegram u then ⟨.delivered, tr.2.sttSent⟩
            else ⟨.deliveryFailed, tr.2.sttSent⟩

/-- Accumulated observable state of one run: the persisted processed set, the
ids passed to save_processed_call, the ids delivered successfully, the ids for
which delivery was attempted, and the payloads sent to the transcription
provider. -/
structure RunResult where
  processed : List String
  marked : List String
  delivered : List String
  deliveryAttempts : List String
  sttRequests : List (List Nat)
deriving DecidableEq

/-- The run state at loop entry: the loaded processed set and empty traces. -/
def initResult (p0 : List String) : RunResult :=
  { processed := p0, marked := [], delivered := [], deliveryAttempts := [], sttRequests := [] }

/-- One iteration of the for loop (main.py 612-723): calls without a truthy
uuid are skipped; otherwise the loop body runs and, on a marking outcome, the
processed set is saved. -/
def stepCall (env : Env) (enum : List String → List String) (acc : RunResult)
    (c : Call) : RunResult :=
  match c.call_uuid with
  | none => acc
  | some u =>
    if u = "" then acc
    else
      let tr := processCall env u
      { processed := if marksProcessed tr.outcome then
                       save_processed_call enum acc.processed u
                     else acc.processed,
        marked := acc.marked ++ (if marksProcessed tr.outcome then [u] else []),
        delivered := acc.delivered ++ (if tr.outcome = .delivered then [u] else []),
        deliveryAttempts :=
          acc.deliveryAttempts ++ (if attemptsDelivery tr.outcome then [u] else []),
        sttRequests := acc.sttRequests ++ tr.sttSent.toList }

/-- Sequential processing of the new-call list. -/
def runAux (env : Env) (enum : List String → List String) :
    RunResult → List Call → RunResult
  | acc, [] => acc
  | acc, c :: cs => runAux env enum (stepCall env enum acc c) cs

/-- The new-call filter (main.py 601): keep calls whose uuid is not in the
loaded processed set; a call with no uuid passes the filter. -/
def newCalls (p0 : List String) (calls : List Call) : List Call :=
  calls.filter fun c =>
    match c.call_uuid with
    | some u => !(decide (u ∈ p0))
    | none => true

/-- Model of one run of main (main.py 562-730) after authentication and call
retrieval: filter the window against the loaded processed set, then process
each new call in order. -/
def runMain (env : Env) (enum : List String → List String) (p0 : List String)
    (calls : List Call) : RunResult :=
  runAux env enum (initResult p0) (newCalls p0 calls)

/-! ## Concrete inputs used by witnesses and counterexamples -/

/-- A hundred pairwise distinct identifiers, used to fill the processed set to
its cap. -/
def qs100 : List String :=
  (List.range 100).map fun i => String.mk (List.replicate i 'q')

/-- Transcription-step oracles for a short healthy recording. -/
def okYandex : YandexOracles :=
  { ffprobe := .ran 0, duration := some 10, ffmpeg := .ran 0,
    oggBytes := [7], stt := fun _ => some "привет" }

/-- An environment in which call processing succeeds end to end: a direct
storage URL serves the bytes, transcription and analysis succeed, and the
chat sink accepts the report. -/
def envOk : Env :=
  { cdr := fun _ => some { record_file_size := 10, storage_url := some "s", record_uuid := none },
    storage := fun _ => some { status := 200, content := [1, 2, 3] },
    record := fun _ => none,
    legacy := fun _ => none,
    yandex := fun _ => okYandex,
    apiKey := "key",
    analyze := fun _ => some "ПРОДАЖА ЗАКАЗ ОФОРМЛЕН",
    telegram := fun _ => true }

/-- The same pipeline as envOk except that the chat sink rejects every report. -/
def envSinkDown : Env :=
  { envOk with telegram := fun _ => false }

/-- An environment in which all three recording endpoints answer 500 for a
call whose CDR advertises a nonzero recording. -/
def envAllFetch500 : Env :=
  { cdr := fun _ => some { record_file_size := 5, storage_url := some "s", record_uuid := some "r" },
    storage := fun _ => some { status := 500, content := [] },
    record := fun _ => some { status := 500, content := [] },
    legacy := fun _ => some { status := 500, content := [] },
    yandex := fun _ => okYandex,
    apiKey := "key",
    analyze := fun _ => some "x",
    telegram := fun _ => true }

/-- An environment whose CDR reports a zero-byte recording for every call. -/
def envZeroSize : Env :=
  { envOk with cdr := fun _ => some { record_file_size := 0, storage_url := some "s", record_uuid := none } }

/-! ## Helper lemmas: processed-set tracker -/

lemma pyInsert_length_le (s : List String) (x : String) :
    (pyInsert s x).length ≤ s.length + 1 := by
  unfold pyInsert
  split <;> simp

lemma mem_pyInsert_self (s : List String) (x : String) : x ∈ pyInsert s x := by
  unfold pyInsert
  split <;> simp_all

lemma mem_pyInsert_of_mem (s : List String) (x y : String) (h : y ∈ s) :
    y ∈ pyInsert s x := by
  unfold pyInsert
  split <;> simp [h]

lemma save_small (enum : List String → List String) (s : List String) (x : String)
    (h : s.length + 1 ≤ 100) : save_processed_call enum s x = pyInsert s x := by
  unfold save_processed_call
  rw [if_neg]
  have := pyInsert_length_le s x
  omega

/-! ## Helper lemmas: transcription step -/

lemma transcribe_refuse (o : YandexOracles) (k : String) (audio : List Nat)
    (hk1 : ¬(k = "")) (hk2 : ¬(k = "your_yandex_api_key")) (hne : ¬(audio = []))
    (hsz : audio.length ≤ 1048576) (hmp3 : isMp3Like audio = true)
    (hprobe : o.ffprobe = ProcOutcome.ran 0) (d : Rat) (hdur : o.duration = some d)
    (hgt : 30 < d) :
    transcribe_with_yandex o k audio =
      (some tooLongMsg, ⟨[TempFile.mp3], [TempFile.mp3], false, true, false, none⟩) := by
  have hsz' : ¬(1048576 < audio.length) := by omega
  simp [transcribe_with_yandex, hk1, hk2, hne, hsz', hmp3, hprobe, hdur, hgt]

lemma transcribe_convert_dle (o : YandexOracles) (k : String) (audio : List Nat)
    (hk1 : ¬(k = "")) (hk2 : ¬(k = "your_yandex_api_key")) (hne : ¬(audio = []))
    (hsz : audio.length ≤ 1048576) (hmp3 : isMp3Like audio = true)
    (hprobe : o.ffprobe = ProcOutcome.ran 0) (d : Rat) (hdur : o.duration = some d)
    (hle : ¬(30 < d)) :
    transcribe_with_yandex o k audio =
      convertStep o ⟨[TempFile.mp3], [], false, false, false, none⟩ := by
  have hsz' : ¬(1048576 < audio.length) := by omega
  simp [transcribe_with_yandex, hk1, hk2, hne, hsz', hmp3, hprobe, hdur, hle]

lemma transcribe_convert_rc (o : YandexOracles) (k : String) (audio : List Nat)
    (hk1 : ¬(k = "")) (hk2 : ¬(k = "your_yandex_api_key")) (hne : ¬(audio = []))
    (hsz : audio.length ≤ 1048576) (hmp3 : isMp3Like audio = true)
    (rc : Int) (hprobe : o.ffprobe = ProcOutcome.ran rc) (hrc : ¬(rc = 0)) :
    transcribe_with_yandex o k audio =
      convertStep o ⟨[TempFile.mp3], [], false, false, false, none⟩ := by
  have hsz' : ¬(1048576 < audio.length) := by omega
  simp [transcribe_with_yandex, hk1, hk2, hne, hsz', hmp3, hprobe, hrc]

lemma transcribe_convert_noparse (o : YandexOracles) (k : String) (audio : List Nat)
    (hk1 : ¬(k = "")) (hk2 : ¬(k = "your_yandex_api_key")) (hne : ¬(audio = []))
    (hsz : audio.length ≤ 1048576) (hmp3 : isMp3Like audio = true)
    (hprobe : o.ffprobe = ProcOutcome.ran 0) (hdur : o.duration = none) :
    transcribe_with_yandex o k audio =
      convertStep o ⟨[TempFile.mp3], [], false, false, false, none⟩ := by
  have hsz' : ¬(1048576 < audio.length) := by omega
  simp [transcribe_with_yandex, hk1, hk2, hne, hsz', hmp3, hprobe, hdur]

lemma convertStep_flags (o : YandexOracles) (st : YandexStats) :
    (convertStep o st).2.refusedTooLong = st.refusedTooLong ∧
    (convertStep o st).2.ffmpegRan = true := by
  rcases hf : o.ffmpeg with rc | _
  · by_cases hrc : rc = 0 <;> simp [convertStep, sttCall, hf, hrc]
  · simp [convertStep, hf]

lemma convertStep_ran0 (o : YandexOracles) (st : YandexStats) (h : o.ffmpeg = ProcOutcome.ran 0) :
    (convertStep o st).2.sttSent = some o.oggBytes ∧
    (convertStep o st).1 = o.stt o.oggBytes := by
  simp [convertStep, sttCall, h]

lemma transcribe_tooLarge_false (o : YandexOracles) (k : String) (audio : List Nat)
    (hsz : audio.length ≤ 1048576) :
    (transcribe_with_yandex o k audio).2.tooLarge = false := by
  unfold transcribe_with_yandex convertStep sttCall
  repeat' split
  all_goals first | rfl | (exfalso; omega)

lemma replicate_zero_ne_mp3Sig (m : Nat) : ¬(List.replicate m (0 : Nat) = mp3Sig) := by
  intro h
  have h73 : (73 : Nat) ∈ mp3Sig := by decide
  rw [← h] at h73
  have := List.eq_of_mem_replicate h73
  omega

lemma replicate_zero_ne_ftypSig (m : Nat) : ¬(List.replicate m (0 : Nat) = ftypSig) := by
  intro h
  have h102 : (102 : Nat) ∈ ftypSig := by decide
  rw [← h] at h102
  have := List.eq_of_mem_replicate h102
  omega

lemma isMp3Like_replicate_zero (n : Nat) : isMp3Like (List.replicate n 0) = false := by
  unfold isMp3Like
  rw [List.take_replicate, List.drop_replicate, List.take_replicate]
  rw [decide_eq_false (replicate_zero_ne_mp3Sig _), decide_eq_false (replicate_zero_ne_ftypSig _)]
  rfl

/-! ## C5, C6, C7, C10: the audio normalizer -/

/-- C5: for a legacy-container blob the duration probe runs before any
transcoding; a probed duration of exactly 30.0 seconds proceeds to transcoding
and transcription, while any probed duration strictly greater than 30 returns
the fixed placeholder transcript without invoking the transcoder. -/
theorem c5_duration_boundary (o : YandexOracles) (k : String) (audio : List Nat)
    (hk1 : ¬(k = "")) (hk2 : ¬(k = "your_yandex_api_key")) (hne : ¬(audio = []))
    (hsz : audio.length ≤ 1048576) (hmp3 : isMp3Like audio = true)
    (hprobe : o.ffprobe = .ran 0) :
    (o.duration = some 30 →
      (transcribe_with_yandex o k audio).2.refusedTooLong = false ∧
      (transcribe_with_yandex o k audio).2.ffmpegRan = true ∧
      (o.ffmpeg = ProcOutcome.ran 0 →
        (transcribe_with_yandex o k audio).2.sttSent = some o.oggBytes ∧
        (transcribe_with_yandex o k audio).1 = o.stt o.oggBytes)) ∧
    (∀ d : Rat, o.duration = some d → 30 < d →
      transcribe_with_yandex o k audio =
        (some tooLongMsg, ⟨[TempFile.mp3], [TempFile.mp3], false, true, false, none⟩)) := by
  constructor
  · intro hdur
    have hmain := transcribe_convert_dle o k audio hk1 hk2 hne hsz hmp3 hprobe 30 hdur
      (by norm_num)
    rw [hmain]
    refine ⟨(convertStep_flags o _).1, (convertStep_flags o _).2, fun hff => convertStep_ran0 o _ hff⟩
  · intro d hdur hgt
    exact transcribe_refuse o k audio hk1 hk2 hne hsz hmp3 hprobe d hdur hgt

/-- C5 witness: a three-byte ID3 blob; probed duration 31 yields the
placeholder with no transcoding, probed duration exactly 30 transcodes and
sends the converted bytes. -/
theorem c5_witness :
    transcribe_with_yandex ⟨.ran 0, some 31, .ran 0, [9], fun _ => some "t"⟩ "k" [73, 68, 51]
      = (some tooLongMsg, ⟨[TempFile.mp3], [TempFile.mp3], false, true, false, none⟩) ∧
    (transcribe_with_yandex ⟨.ran 0, some 30, .ran 0, [9], fun _ => some "t"⟩ "k" [73, 68, 51]).2.ffmpegRan = true ∧
    (transcribe_with_yandex ⟨.ran 0, some 30, .ran 0, [9], fun _ => some "t"⟩ "k" [73, 68, 51]).2.sttSent = some [9] := by
  refine ⟨?_, ?_, ?_⟩
  · exact (c5_duration_boundary ⟨.ran 0, some 31, .ran 0, [9], fun _ => some "t"⟩ "k" [73, 68, 51]
      (by decide) (by decide) (by decide) (by decide) (by decide) rfl).2 31 rfl (by norm_num)
  · exact ((c5_duration_boundary ⟨.ran 0, some 30, .ran 0, [9], fun _ => some "t"⟩ "k" [73, 68, 51]
      (by decide) (by decide) (by decide) (by decide) (by decide) rfl).1 rfl).2.1
  · exact (((c5_duration_boundary ⟨.ran 0, some 30, .ran 0, [9], fun _ => some "t"⟩ "k" [73, 68, 51]
      (by decide) (by decide) (by decide) (by decide) (by decide) rfl).1 rfl).2.2 rfl).1

/-- C6: the normalizer accepts a blob of exactly 1048576 bytes and rejects
with the TooLarge outcome, attempting no transcription, any blob of 1048577
bytes or more. -/
theorem c6_size_boundary (o : YandexOracles) (k : String) (audio : List Nat)
    (hk1 : ¬(k = "")) (hk2 : ¬(k = "your_yandex_api_key")) :
    (1048576 < audio.length →
      transcribe_with_yandex o k audio = (none, ⟨[], [], true, false, false, none⟩)) ∧
    (audio.length = 1048576 → (transcribe_with_yandex o k audio).2.tooLarge = false) ∧
    (audio.length = 1048576 → isMp3Like audio = false →
      (transcribe_with_yandex o k audio).2.sttSent = some audio ∧
      (transcribe_with_yandex o k audio).1 = o.stt audio) := by
  refine ⟨?_, fun h => transcribe_tooLarge_false o k audio (le_of_eq h), ?_⟩
  · intro hbig
    have hne : ¬(audio = []) := by
      intro h
      rw [h] at hbig
      simp at hbig
    unfold transcribe_with_yandex
    rw [if_neg (not_or.mpr ⟨hk1, hk2⟩), if_neg hne, if_pos hbig]
  · intro hlen hm
    have hne : ¬(audio = []) := by
      intro h
      rw [h] at hlen
      simp at hlen
    unfold transcribe_with_yandex sttCall
    rw [if_neg (not_or.mpr ⟨hk1, hk2⟩), if_neg hne, if_neg (by omega),
      if_neg (by simp [hm])]
    simp

/-- C6 witness: a blob of 1048577 zero bytes is rejected as too large; a blob
of exactly 1048576 zero bytes passes the size gate and is sent to the
provider unchanged. -/
theorem c6_witness :
    transcribe_with_yandex okYandex "k" (List.replicate 1048577 0)
      = (none, ⟨[], [], true, false, false, none⟩) ∧
    (transcribe_with_yandex okYandex "k" (List.replicate 1048576 0)).2.tooLarge = false ∧
    (transcribe_with_yandex okYandex "k" (List.replicate 1048576 0)).2.sttSent
      = some (List.replicate 1048576 0) := by
  refine ⟨?_, ?_, ?_⟩
  · exact (c6_size_boundary okYandex "k" (List.replicate 1048577 0) (by decide) (by decide)).1
      (by rw [List.length_replicate]; norm_num)
  · exact (c6_size_boundary okYandex "k" (List.replicate 1048576 0) (by decide) (by decide)).2.1
      (by rw [List.length_replicate])
  · exact ((c6_size_boundary okYandex "k" (List.replicate 1048576 0) (by decide) (by decide)).2.2
      (by rw [List.length_replicate]) (isMp3Like_replicate_zero _)).1

/-- C7: at the concrete input where ffmpeg fails (exit code 1) on a
ID3-tagged blob of admissible duration, the conversion step returns none
having created both temporary files and removed neither: the early return at
main.py line 363 bypasses the unlink calls at lines 366-367, so the cleanup
claim fails on the conversion-failure exit path. -/
theorem c7_tempfile_leak :
    transcribe_with_yandex ⟨.ran 0, some 10, .ran 1, [], fun _ => none⟩ "k" [73, 68, 51]
      = (none, ⟨[TempFile.mp3, TempFile.ogg], [], false, false, true, none⟩) ∧
    transcribe_with_yandex ⟨.exn, none, .ran 0, [], fun _ => none⟩ "k" [73, 68, 51]
      = (none, ⟨[TempFile.mp3], [], false, false, false, none⟩) := by
  constructor <;> decide

/-- C10: when the duration probe fails (nonzero ffprobe exit code, or stdout
that does not parse as a number), the 30-second refusal is silently skipped
and the blob proceeds to transcoding; with a successful conversion the
converted bytes are still sent to the transcription provider. -/
theorem c10_probe_failure_skips_check (o : YandexOracles) (k : String) (audio : List Nat)
    (hk1 : ¬(k = "")) (hk2 : ¬(k = "your_yandex_api_key")) (hne : ¬(audio = []))
    (hsz : audio.length ≤ 1048576) (hmp3 : isMp3Like audio = true) :
    (∀ rc : Int, o.ffprobe = .ran rc → ¬(rc = 0) →
      (transcribe_with_yandex o k audio).2.refusedTooLong = false ∧
      (transcribe_with_yandex o k audio).2.ffmpegRan = true ∧
      (o.ffmpeg = ProcOutcome.ran 0 →
        (transcribe_with_yandex o k audio).2.sttSent = some o.oggBytes ∧
        (transcribe_with_yandex o k audio).1 = o.stt o.oggBytes)) ∧
    (o.ffprobe = ProcOutcome.ran 0 → o.duration = none →
      (transcribe_with_yandex o k audio).2.refusedTooLong = false ∧
      (transcribe_with_yandex o k audio).2.ffmpegRan = true ∧
      (o.ffmpeg = ProcOutcome.ran 0 →
        (transcribe_with_yandex o k audio).2.sttSent = some o.oggBytes ∧
        (transcribe_with_yandex o k audio).1 = o.stt o.oggBytes)) := by
  constructor
  · intro rc hrc hrc0
    have hmain := transcribe_convert_rc o k audio hk1 hk2 hne hsz hmp3 rc hrc hrc0
    rw [hmain]
    refine ⟨(convertStep_flags o _).1, (convertStep_flags o _).2, fun hff => convertStep_ran0 o _ hff⟩
  · intro hrc hdur
    have hmain := transcribe_convert_noparse o k audio hk1 hk2 hne hsz hmp3 hrc hdur
    rw [hmain]
    refine ⟨(convertStep_flags o _).1, (convertStep_flags o _).2, fun hff => convertStep_ran0 o _ hff⟩

/-- C10 witness: probe exit code 1 with a parsed duration of 99 seconds still
transcodes and sends the converted bytes; so does exit code 0 with
unparseable probe output. -/
theorem c10_witness :
    (transcribe_with_yandex ⟨.ran 1, some 99, .ran 0, [9], fun _ => some "t"⟩ "k" [73, 68, 51]).2.sttSent = some [9] ∧
    (transcribe_with_yandex ⟨.ran 1, some 99, .ran 0, [9], fun _ => some "t"⟩ "k" [73, 68, 51]).2.refusedTooLong = false ∧
    (transcribe_with_yandex ⟨.ran 0, none, .ran 0, [9], fun _ => some "t"⟩ "k" [73, 68, 51]).2.sttSent = some [9] := by
  refine ⟨?_, ?_, ?_⟩
  · exact (((c10_probe_failure_skips_check ⟨.ran 1, some 99, .ran 0, [9], fun _ => some "t"⟩ "k" [73, 68, 51]
      (by decide) (by decide) (by decide) (by decide) (by decide)).1 1 rfl (by decide)).2.2 rfl).1
  · exact ((c10_probe_failure_skips_check ⟨.ran 1, some 99, .ran 0, [9], fun _ => some "t"⟩ "k" [73, 68, 51]
      (by decide) (by decide) (by decide) (by decide) (by decide)).1 1 rfl (by decide)).1
  · exact (((c10_probe_failure_skips_check ⟨.ran 0, none, .ran 0, [9], fun _ => some "t"⟩ "k" [73, 68, 51]
      (by decide) (by decide) (by decide) (by decide) (by decide)).2 rfl rfl).2.2 rfl).1

/-! ## C8: the report formatter's classifier -/

/-- C8: the visual classification equals first-match evaluation of the fixed
rule list in the priority order successful-sale, failed-sale, logistics,
support, no-answer/error, other, generic fallback, and the chosen tag is
always one of the seven outcomes. -/
theorem c8_classifier_priority (a : String) :
    call_type_emoji a = firstTag tagRules a ∧
    call_type_emoji a ∈ ["🟢 УСПЕШНАЯ ПРОДАЖА", "🔴 НЕУДАЧНАЯ ПРОДАЖА", "🚚 ЛОГИСТИКА",
      "🛠️ ПОДДЕРЖКА", "❌ НЕДОЗВОН/ОШИБКА", "📋 ДРУГОЕ", "📞"] := by
  by_cases h1 : substrB "ПРОДАЖА" a = true <;>
  by_cases h2 : substrB "ЗАКАЗ ОФОРМЛЕН" a = true <;>
  by_cases h3 : substrB "ЛОГИСТИКА" a = true <;>
  by_cases h4 : substrB "ПОДДЕРЖКА" a = true <;>
  by_cases h5 : substrB "НЕДОЗВОН" a = true <;>
  by_cases h6 : substrB "ОШИБКА" a = true <;>
  by_cases h7 : substrB "ДРУГОЕ" a = true <;>
  simp [call_type_emoji, firstTag, tagRules, h1, h2, h3, h4, h5, h6, h7]

/-! ## C9: the processed-set cap -/

/-- C9: after every mark operation the processed set holds at most 100
identifiers; the mark inserts the identifier and, when the cardinality then
exceeds 100, evicts excess members down to exactly the cap of 100.  The enum
argument, Python's set-enumeration order, is assumed length-preserving. -/
theorem c9_cap (enum : List String → List String) (s : List String) (x : String)
    (h : (enum (pyInsert s x)).length = (pyInsert s x).length) :
    (save_processed_call enum s x).length ≤ 100 ∧
    (100 < (pyInsert s x).length → (save_processed_call enum s x).length = 100) ∧
    x ∈ pyInsert s x := by
  refine ⟨?_, fun hgt => ?_, mem_pyInsert_self s x⟩
  · simp only [save_processed_call]
    split
    · rw [List.length_drop, h]
      omega
    · omega
  · simp only [save_processed_call]
    rw [if_pos hgt, List.length_drop, h]
    omega

/-- C9 witness: marking an id in the empty set yields a singleton within the
cap. -/
theorem c9_witness :
    (save_processed_call id [] "a").length ≤ 100 ∧
    (100 < (pyInsert [] "a").length → (save_processed_call id [] "a").length = 100) ∧
    "a" ∈ pyInsert [] "a" :=
  c9_cap id [] "a" rfl


/-! ## Helper lemmas: orchestrator -/

lemma newCalls_single (p0 : List String) (u : String) (hp : ¬(u ∈ p0)) :
    newCalls p0 [⟨some u⟩] = [⟨some u⟩] := by
  simp [newCalls, hp]

lemma runMain_single (env : Env) (enum : List String → List String) (p0 : List String)
    (u : String) (hu : ¬(u = "")) (hp : ¬(u ∈ p0)) :
    runMain env enum p0 [⟨some u⟩] =
      { processed := if marksProcessed (processCall env u).outcome then
                       save_processed_call enum p0 u
                     else p0,
        marked := if marksProcessed (processCall env u).outcome then [u] else [],
        delivered := if (processCall env u).outcome = Outcome.delivered then [u] else [],
        deliveryAttempts := if attemptsDelivery (processCall env u).outcome then [u] else [],
        sttRequests := (processCall env u).sttSent.toList } := by
  rw [runMain, newCalls_single p0 u hp]
  simp [runAux, stepCall, initResult, hu]

lemma processCall_delivered_telegram (env : Env) (u : String)
    (h : (processCall env u).outcome = Outcome.delivered) : env.telegram u = true := by
  simp only [processCall] at h
  cases hdl : download_recording (env.cdr u) (env.storage u) (env.record u) (env.legacy u) with
  | none => simp [hdl] at h
  | some bytes =>
    by_cases hb : bytes = []
    · simp [hdl, hb] at h
    · cases htr : (transcribe_with_yandex (env.yandex u) env.apiKey bytes).1 with
      | none => simp [hdl, hb, htr] at h
      | some t =>
        by_cases htt : t = ""
        · simp [hdl, hb, htr, htt] at h
        · cases han : env.analyze t with
          | none => simp [hdl, hb, htr, htt, han] at h
          | some a =>
            by_cases ha : a = ""
            · simp [hdl, hb, htr, htt, han, ha] at h
            · cases htel : env.telegram u with
              | false => simp [hdl, hb, htr, htt, han, ha, htel] at h
              | true => rfl

lemma attemptsDelivery_eq (o : Outcome) (h : attemptsDelivery o = true) :
    o = Outcome.delivered ∨ o = Outcome.deliveryFailed := by
  cases o <;> simp_all [attemptsDelivery]

lemma runAux_marked_stable (env : Env) (enum : List String → List String) (u : String)
    (hm : marksProcessed (processCall env u).outcome = false) :
    ∀ (cs : List Call) (acc : RunResult), ¬(u ∈ acc.marked) →
      ¬(u ∈ (runAux env enum acc cs).marked) := by
  intro cs
  induction cs with
  | nil => intro acc hacc; simpa [runAux] using hacc
  | cons c rest ih =>
    intro acc hacc
    show ¬(u ∈ (runAux env enum (stepCall env enum acc c) rest).marked)
    apply ih
    cases hc : c.call_uuid with
    | none => simpa [stepCall, hc] using hacc
    | some u' =>
      by_cases hu' : u' = ""
      · simpa [stepCall, hc, hu'] using hacc
      · cases hmk : marksProcessed (processCall env u').outcome
        · simpa [stepCall, hc, hu', hmk] using hacc
        · have hne : ¬(u = u') := by
            intro he
            rw [← he] at hmk
            rw [hm] at hmk
            cases hmk
          simp [stepCall, hc, hu', hmk, hacc, hne]

lemma runAux_cons (env : Env) (enum : List String → List String) (acc : RunResult)
    (c : Call) (cs : List Call) :
    runAux env enum acc (c :: cs) = runAux env enum (stepCall env enum acc c) cs := rfl

lemma runAux_cap (env : Env) (enum : List String → List String) :
    ∀ (cs : List Call) (acc : RunResult), acc.processed.length + cs.length ≤ 100 →
      ((runAux env enum acc cs).processed.length ≤ acc.processed.length + cs.length ∧
       (∀ x, x ∈ acc.processed → x ∈ (runAux env enum acc cs).processed) ∧
       (∀ c, c ∈ cs → ∀ u, c.call_uuid = some u → ¬(u = "") →
          marksProcessed (processCall env u).outcome = true →
          u ∈ (runAux env enum acc cs).processed)) := by
  intro cs
  induction cs with
  | nil =>
    intro acc h
    refine ⟨by simp [runAux], fun x hx => hx, fun c hc => absurd hc (List.not_mem_nil c)⟩
  | cons c rest ih =>
    intro acc h
    rw [runAux_cons]
    have hstep : (stepCall env enum acc c).processed = acc.processed ∨
        (∃ u, c.call_uuid = some u ∧ ¬(u = "") ∧
          marksProcessed (processCall env u).outcome = true ∧
          (stepCall env enum acc c).processed = pyInsert acc.processed u) := by
      cases hc : c.call_uuid with
      | none => exact Or.inl (by simp [stepCall, hc])
      | some u' =>
        by_cases hu' : u' = ""
        · exact Or.inl (by simp [stepCall, hc, hu'])
        · cases hmk : marksProcessed (processCall env u').outcome
          · exact Or.inl (by simp [stepCall, hc, hu', hmk])
          · refine Or.inr ⟨u', rfl, hu', hmk, ?_⟩
            have hsm : save_processed_call enum acc.processed u' = pyInsert acc.processed u' := by
              apply save_small
              simp at h
              omega
            simp [stepCall, hc, hu', hmk, hsm]
    rcases hstep with heq | ⟨u', hc', hu', hmk', heq⟩
    · have hb : (stepCall env enum acc c).processed.length + rest.length ≤ 100 := by
        rw [heq]
        simp at h ⊢
        omega
      obtain ⟨ihl, ihm, ihk⟩ := ih (stepCall env enum acc c) hb
      refine ⟨by rw [heq] at ihl; simp; omega, ?_, ?_⟩
      · intro x hx
        exact ihm x (by rw [heq]; exact hx)
      · intro c2 hc2 u hcu hune hmarks
        rcases List.mem_cons.mp hc2 with h1 | h1
        · subst h1
          -- the head call did not change processed, yet it marks: contradiction unless it
          -- was skipped; but marksProcessed is true and uuid is truthy, so processed is
          -- the save result, contradicting heq only when lengths differ; handle directly:
          -- re-derive that stepCall saved u
          have : (stepCall env enum acc c2).processed = pyInsert acc.processed u := by
            have hsm : save_processed_call enum acc.processed u = pyInsert acc.processed u := by
              apply save_small
              simp at h
              omega
            simp [stepCall, hcu, hune, hmarks, hsm]
          exact ihm u (by rw [this]; exact mem_pyInsert_self _ _)
        · exact ihk c2 h1 u hcu hune hmarks
    · have hlen : (stepCall env enum acc c).processed.length ≤ acc.processed.length + 1 := by
        rw [heq]
        exact pyInsert_length_le _ _
      have hb : (stepCall env enum acc c).processed.length + rest.length ≤ 100 := by
        simp at h
        omega
      obtain ⟨ihl, ihm, ihk⟩ := ih (stepCall env enum acc c) hb
      refine ⟨by simp; omega, ?_, ?_⟩
      · intro x hx
        exact ihm x (by rw [heq]; exact mem_pyInsert_of_mem _ _ _ hx)
      · intro c2 hc2 u hcu hune hmarks
        rcases List.mem_cons.mp hc2 with h1 | h1
        · subst h1
          have huu : u' = u := by
            rw [hc'] at hcu
            exact Option.some.inj hcu
          subst huu
          exact ihm u' (by rw [heq]; exact mem_pyInsert_self _ _)
        · exact ihk c2 h1 u hcu hune hmarks

lemma runAux_delivered_stable (env : Env) (enum : List String → List String) :
    ∀ (cs : List Call) (acc : RunResult),
      (∀ c, c ∈ cs → ∀ u, c.call_uuid = some u → ¬(u = "") →
        ¬((processCall env u).outcome = Outcome.delivered)) →
      (runAux env enum acc cs).delivered = acc.delivered := by
  intro cs
  induction cs with
  | nil => intro acc _; simp [runAux]
  | cons c rest ih =>
    intro acc hnd
    rw [runAux_cons]
    have hstep : (stepCall env enum acc c).delivered = acc.delivered := by
      cases hc : c.call_uuid with
      | none => simp [stepCall, hc]
      | some u' =>
        by_cases hu' : u' = ""
        · simp [stepCall, hc, hu']
        · have := hnd c (List.mem_cons_self c rest) u' hc hu'
          simp [stepCall, hc, hu', this]
    rw [ih (stepCall env enum acc c) fun c2 hc2 => hnd c2 (List.mem_cons_of_mem c hc2)]
    exact hstep

/-! ## C1: delivery failure leaves the call unmarked -/

/-- C1: for every call that reaches the delivery attempt, a failed delivery
never adds the call's identifier to the processed set, over an arbitrary run;
the identifier is marked only when the sink reports success. -/
theorem c1_delivery_gates_marking (env : Env) (enum : List String → List String)
    (p0 : List String) (calls : List Call) (u : String)
    (hAtt : attemptsDelivery (processCall env u).outcome = true) :
    (env.telegram u = false → ¬(u ∈ (runMain env enum p0 calls).marked)) ∧
    (u ∈ (runMain env enum p0 calls).marked → env.telegram u = true) := by
  have hfail : env.telegram u = false → marksProcessed (processCall env u).outcome = false := by
    intro htel
    rcases attemptsDelivery_eq _ hAtt with h1 | h1
    · rw [processCall_delivered_telegram env u h1] at htel
      cases htel
    · rw [h1]
      rfl
  have hstable : env.telegram u = false → ¬(u ∈ (runMain env enum p0 calls).marked) := by
    intro htel
    show ¬(u ∈ (runAux env enum (initResult p0) (newCalls p0 calls)).marked)
    exact runAux_marked_stable env enum u (hfail htel) _ _ (by simp [initResult])
  refine ⟨hstable, fun hmem => ?_⟩
  cases htel : env.telegram u
  · exact absurd hmem (hstable htel)
  · rfl

/-- C1 witness: a run over one call that reaches delivery against a sink that
rejects every report; the id is not marked. -/
theorem c1_witness :
    (envSinkDown.telegram "A" = false → ¬("A" ∈ (runMain envSinkDown id [] [⟨some "A"⟩]).marked)) ∧
    ("A" ∈ (runMain envSinkDown id [] [⟨some "A"⟩]).marked → envSinkDown.telegram "A" = true) :=
  c1_delivery_gates_marking envSinkDown id [] [⟨some "A"⟩] "A" (by decide)

/-! ## C4: zero-size recordings are marked with no transcription attempt -/

/-- C4: a call whose CDR reports record_file_size 0 is marked processed, with
no bytes sent to the transcription provider, no delivery attempt, and no
delivered report. -/
theorem c4_zero_size_marks (env : Env) (enum : List String → List String)
    (p0 : List String) (u : String) (r : CdrRecord)
    (hu : ¬(u = "")) (hp : ¬(u ∈ p0)) (hcdr : env.cdr u = some r)
    (hsz : r.record_file_size = 0) :
    (runMain env enum p0 [⟨some u⟩]).marked = [u] ∧
    (runMain env enum p0 [⟨some u⟩]).sttRequests = [] ∧
    (runMain env enum p0 [⟨some u⟩]).deliveryAttempts = [] ∧
    (runMain env enum p0 [⟨some u⟩]).delivered = [] ∧
    (runMain env enum p0 [⟨some u⟩]).processed = save_processed_call enum p0 u ∧
    (p0.length < 100 → u ∈ (runMain env enum p0 [⟨some u⟩]).processed) := by
  have hdl : download_recording (env.cdr u) (env.storage u) (env.record u) (env.legacy u) = none := by
    rw [hcdr]
    simp [download_recording, hsz]
  have hpc : processCall env u = ⟨Outcome.noRecording, none⟩ := by
    simp [processCall, hdl]
  have hrm := runMain_single env enum p0 u hu hp
  rw [hpc] at hrm
  refine ⟨?_, ?_, ?_, ?_, ?_, fun hcap => ?_⟩ <;> rw [hrm] <;>
    simp [marksProcessed, attemptsDelivery]
  rw [save_small enum p0 u (by omega)]
  exact mem_pyInsert_self p0 u

/-- C4 witness: one call against a CDR with byte size 0. -/
theorem c4_witness :
    (runMain envZeroSize id [] [⟨some "A"⟩]).marked = ["A"] ∧
    (runMain envZeroSize id [] [⟨some "A"⟩]).sttRequests = [] ∧
    (runMain envZeroSize id [] [⟨some "A"⟩]).deliveryAttempts = [] ∧
    (runMain envZeroSize id [] [⟨some "A"⟩]).delivered = [] ∧
    (runMain envZeroSize id [] [⟨some "A"⟩]).processed = save_processed_call id [] "A" ∧
    (List.length ([] : List String) < 100 → "A" ∈ (runMain envZeroSize id [] [⟨some "A"⟩]).processed) :=
  c4_zero_size_marks envZeroSize id [] "A" ⟨0, some "s", none⟩ (by decide) (by decide) rfl rfl

/-! ## C2: the three-tier recording fallback -/

/-- C2 counterexample: a CDR with nonzero size whose three endpoints all
answer 500; download_recording returns none, no exception escapes, and the
orchestrator marks the call processed with no delivery attempt, contradicting
the claim that the call remains unmarked for retry. -/
theorem c2_counterexample :
    download_recording (some ⟨5, some "s", some "r"⟩)
      (some ⟨500, []⟩) (some ⟨500, []⟩) (some ⟨500, []⟩) = none ∧
    (runMain envAllFetch500 id [] [⟨some "A"⟩]).marked = ["A"] ∧
    "A" ∈ (runMain envAllFetch500 id [] [⟨some "A"⟩]).processed ∧
    (runMain envAllFetch500 id [] [⟨some "A"⟩]).delivered = [] ∧
    (runMain envAllFetch500 id [] [⟨some "A"⟩]).deliveryAttempts = [] := by
  decide

/-- C2 amended: the fetch tries storage_url first, falls through on non-200
to the record_uuid endpoint, then to the legacy call_uuid endpoint; but when
all three fail with a non-404 status no error is propagated: the function
returns none and the orchestrator treats the call like one with no recording,
marking it processed with no delivery attempt. -/
theorem c2_fallback_amended (env : Env) (enum : List String → List String)
    (p0 : List String) (u : String) (r : CdrRecord) (su ru : String)
    (sresp rresp lresp : HttpResp)
    (hu : ¬(u = "")) (hp : ¬(u ∈ p0))
    (hcdr : env.cdr u = some r) (hsz : ¬(r.record_file_size = 0))
    (hsu : r.storage_url = some su) (hsune : ¬(su = ""))
    (hru : r.record_uuid = some ru) (hrune : ¬(ru = ""))
    (hs : env.storage u = some sresp) (hr : env.record u = some rresp)
    (hl : env.legacy u = some lresp) :
    (sresp.status = 200 →
      download_recording (env.cdr u) (env.storage u) (env.record u) (env.legacy u)
        = some sresp.content) ∧
    (¬(sresp.status = 200) → rresp.status = 200 →
      download_recording (env.cdr u) (env.storage u) (env.record u) (env.legacy u)
        = some rresp.content) ∧
    (¬(sresp.status = 200) → ¬(rresp.status = 200) → lresp.status = 200 →
      download_recording (env.cdr u) (env.storage u) (env.record u) (env.legacy u)
        = some lresp.content) ∧
    (¬(sresp.status = 200) → ¬(rresp.status = 200) → ¬(lresp.status = 200) →
      ¬(lresp.status = 404) →
      download_recording (env.cdr u) (env.storage u) (env.record u) (env.legacy u) = none ∧
      (runMain env enum p0 [⟨some u⟩]).marked = [u] ∧
      (runMain env enum p0 [⟨some u⟩]).delivered = [] ∧
      (runMain env enum p0 [⟨some u⟩]).deliveryAttempts = []) := by
  refine ⟨fun h200 => ?_, fun hns h200 => ?_, fun hns hnr h200 => ?_,
    fun hns hnr hnl hn404 => ?_⟩
  · rw [hcdr, hs]
    simp [download_recording, fetchAttempt, optTruthy, hsz, hsu, hsune, h200]
  · rw [hcdr, hs, hr]
    simp [download_recording, fetchAttempt, optTruthy, hsz, hsu, hsune, hru, hrune, hns, h200]
  · rw [hcdr, hs, hr, hl]
    simp [download_recording, fetchAttempt, optTruthy, hsz, hsu, hsune, hru, hrune,
      hns, hnr, h200]
  · have hdl : download_recording (env.cdr u) (env.storage u) (env.record u) (env.legacy u)
        = none := by
      rw [hcdr, hs, hr, hl]
      simp [download_recording, fetchAttempt, optTruthy, hsz, hsu, hsune, hru, hrune,
        hns, hnr, hnl, hn404]
    have hpc : processCall env u = ⟨Outcome.noRecording, none⟩ := by
      simp [processCall, hdl]
    have hrm := runMain_single env enum p0 u hu hp
    rw [hpc] at hrm
    refine ⟨hdl, ?_, ?_, ?_⟩ <;> rw [hrm] <;> simp [marksProcessed, attemptsDelivery]

/-- C2 witness: the amended theorem applied to the all-500 environment. -/
theorem c2_witness :
    download_recording (envAllFetch500.cdr "A") (envAllFetch500.storage "A")
      (envAllFetch500.record "A") (envAllFetch500.legacy "A") = none ∧
    (runMain envAllFetch500 id [] [⟨some "A"⟩]).marked = ["A"] ∧
    (runMain envAllFetch500 id [] [⟨some "A"⟩]).delivered = [] ∧
    (runMain envAllFetch500 id [] [⟨some "A"⟩]).deliveryAttempts = [] :=
  (c2_fallback_amended envAllFetch500 id [] "A" ⟨5, some "s", some "r"⟩ "s" "r"
    ⟨500, []⟩ ⟨500, []⟩ ⟨500, []⟩ (by decide) (by decide) rfl (by decide) rfl (by decide)
    rfl (by decide) rfl rfl rfl).2.2.2 (by decide) (by decide) (by decide) (by decide)

/-! ## C3: idempotence of a second run -/

/-- C3 counterexample: with the processed set already at its 100-entry cap
and a set-enumeration order that lists the newly delivered id first, the
first run delivers call A, the eviction in save_processed_call drops A from
the persisted set, and a second run over the same window delivers A again:
the second run does not deliver zero new reports. -/
theorem c3_counterexample :
    (runMain envOk List.reverse qs100 [⟨some "A"⟩]).delivered = ["A"] ∧
    ¬("A" ∈ (runMain envOk List.reverse qs100 [⟨some "A"⟩]).processed) ∧
    (runMain envOk List.reverse
        (runMain envOk List.reverse qs100 [⟨some "A"⟩]).processed [⟨some "A"⟩]).delivered
      = ["A"] := by
  decide

/-- C3 amended: a second run over the same window starting from the state the
first run left delivers zero new reports, provided the initial processed set
plus the window fits under the 100-entry cap, so that no eviction occurs; in
general cap eviction (whose order the source leaves to Python set
enumeration) can evict a delivered identifier and the call is re-delivered. -/
theorem c3_idempotent_amended (env : Env) (enum : List String → List String)
    (p0 : List String) (calls : List Call)
    (hb : p0.length + calls.length ≤ 100) :
    (runMain env enum (runMain env enum p0 calls).processed calls).delivered = [] := by
  have hlen : (newCalls p0 calls).length ≤ calls.length :=
    List.length_filter_le _ _
  have hb1 : (initResult p0).processed.length + (newCalls p0 calls).length ≤ 100 := by
    simp [initResult]
    omega
  obtain ⟨hL, hMono, hMark⟩ := runAux_cap env enum (newCalls p0 calls) (initResult p0) hb1
  show (runAux env enum (initResult ((runMain env enum p0 calls).processed))
      (newCalls ((runMain env enum p0 calls).processed) calls)).delivered = []
  rw [runAux_delivered_stable env enum _ _ ?_]
  · rfl
  · intro c hc u hcu hune hdel
    have hmf := List.mem_filter.mp hc
    have hnotF : ¬(u ∈ (runMain env enum p0 calls).processed) := by
      have := hmf.2
      rw [hcu] at this
      simpa using this
    have hup0 : ¬(u ∈ p0) := by
      intro hmem
      exact hnotF (hMono u (by simpa [initResult] using hmem))
    have hcnew : c ∈ newCalls p0 calls := by
      apply List.mem_filter.mpr
      refine ⟨hmf.1, ?_⟩
      rw [hcu]
      simpa using hup0
    have hmarks : marksProcessed (processCall env u).outcome = true := by
      rw [hdel]
      rfl
    exact hnotF (hMark c hcnew u hcu hune hmarks)

/-- C3 witness: the amended theorem at a window of one call over an empty
initial processed set. -/
theorem c3_witness :
    (runMain envOk id (runMain envOk id [] [⟨some "A"⟩]).processed [⟨some "A"⟩]).delivered
      = [] :=
  c3_idempotent_amended envOk id [] [⟨some "A"⟩] (by decide)
end Telfin
